import Mathlib

/-!
# Incuvers incubator firmware: PiLink telemetry and the rocker

A shallow embedding of `Opt_PiLink.h` (the status line sent to the Pi over
`Serial1`, with its CRC-32 trailer) and of `Opt_Rocker.h` (the servo rocker),
followed by the properties proved about them.

Conventions.
* An Arduino `String` is a `List Char`; `a + b` on strings is `++`.
* `Serial1` is a record holding the configuration given to `begin` and the
  characters printed so far.
* `incSet` is a pointer: the reporter stores a `Handle`, and the settings
  object it points to is looked up in a `Mem` at the time of the call.
* The accessors of `IncuversSettingsHandler`, the sketch-level helper
  `GetIndicator` and the float-to-text conversion `String(float, n)` are not
  part of the two headers; they are parameters of the embedding.
-/

set_option autoImplicit false

namespace Incuvers

/-! ## Arduino core: number printing -/

/-- One digit of `Print::printNumber`: `c < 10 ? c + '0' : c + 'A' - 10`. -/
def digitChar (c : Nat) : Char :=
  if c < 10 then Char.ofNat (c + 48) else Char.ofNat (c + 55)

/-- The `do { ... } while (n)` loop of `Print::printNumber`, writing digits
from the end of the buffer towards its start. `fuel` bounds the number of
digits (the buffer of the core holds `8 * sizeof(long)` of them). -/
def printNumberLoop : Nat → Nat → Nat → List Char → List Char
  | 0, _, _, buf => buf
  | fuel + 1, n, base, buf =>
    let buf := digitChar (n % base) :: buf
    if n / base = 0 then buf else printNumberLoop fuel (n / base) base buf

/-- The text of `Print::print(unsigned long n, int base)`: `n` is a 32-bit
unsigned value, a base below 2 is replaced by 10. -/
def printNumber (n base : Nat) : List Char :=
  printNumberLoop 32 (n % 2 ^ 32) (if base < 2 then 10 else base) []

/-- The Arduino constant `HEX`. -/
def HEX : Nat := 16

/-- The Arduino constant `DEC`. -/
def DEC : Nat := 10

/-- The text of `String(int value, DEC)` (`itoa`): a minus sign for a negative
value, then the decimal digits of its magnitude. -/
def intString (v : Int) (base : Nat) : List Char :=
  if v < 0 then '-' :: printNumberLoop (v.natAbs + 1) v.natAbs base []
  else printNumberLoop (v.natAbs + 1) v.natAbs base []

/-! ## The serial port -/

/-- Frame format passed to `HardwareSerial::begin`. -/
structure SerialConfig where
  dataBits : Nat
  evenParity : Bool
  stopBits : Nat
  deriving DecidableEq, Repr

/-- The Arduino constant `SERIAL_8E2`: 8 data bits, even parity, 2 stop bits. -/
def SERIAL_8E2 : SerialConfig := ⟨8, true, 2⟩

/-- The state of `Serial1`: what `begin` was last called with, and every
character printed so far, oldest first. -/
structure HardwareSerial where
  begun : Option (Nat × SerialConfig)
  out : List Char
  deriving DecidableEq, Repr

namespace HardwareSerial

/-- Model of `Serial1.begin(baud, config)`. -/
def begin (s : HardwareSerial) (baud : Nat) (config : SerialConfig) : HardwareSerial :=
  { s with begun := some (baud, config) }

/-- Model of `Serial1.print(text)`. -/
def print (s : HardwareSerial) (text : List Char) : HardwareSerial :=
  { s with out := s.out ++ text }

/-- Model of `Serial1.print(n, base)` for an unsigned 32-bit `n`. -/
def printNum (s : HardwareSerial) (n base : Nat) : HardwareSerial :=
  s.print (printNumber n base)

/-- Model of `Serial1.println()`: carriage return, line feed. -/
def println (s : HardwareSerial) : HardwareSerial :=
  s.print [Char.ofNat 13, Char.ofNat 10]

end HardwareSerial

/-! ## The CRC32 library object -/

/-- Modelled from the spec: the `CRC32` class of the CRC32 library included by
`Opt_PiLink.h` (`#include <CRC32.h>`, not part of the repository). The spec
fixes it as the standard CRC-32: IEEE 802.3 polynomial in reflected form
(`0xEDB88320`), register initialised to all ones, one byte folded in per
`update`, final complement in `finalize`. -/
structure CRC32 where
  state : Nat
  deriving DecidableEq, Repr

namespace CRC32

/-- The reflected IEEE 802.3 polynomial. -/
def polynomial : Nat := 0xEDB88320

/-- One shift of the reflected register. -/
def shift (r : Nat) : Nat :=
  if r % 2 = 1 then (r / 2) ^^^ polynomial else r / 2

/-- A freshly constructed `CRC32`: the register is all ones. -/
def init : CRC32 := ⟨0xFFFFFFFF⟩

/-- Model of `crc.update(c)`: the byte of `c` is xored into the low end of
the register, which is then shifted eight times. -/
def update (crc : CRC32) (c : Char) : CRC32 :=
  ⟨shift (shift (shift (shift (shift (shift (shift (shift
    (crc.state ^^^ (c.toNat % 256)))))))))⟩

/-- Model of `crc.finalize()`: the complement of the register, as a 32-bit
unsigned value. -/
def finalize (crc : CRC32) : Nat :=
  (crc.state ^^^ 0xFFFFFFFF) % 2 ^ 32

end CRC32

/-- The CRC-32 of a whole text: a fresh register, every character in order,
then the final complement. -/
def crc32 (text : List Char) : Nat :=
  (text.foldl CRC32.update CRC32.init).finalize

/-! ## The settings handler and the sketch-level helpers -/

/-- The read accessors of `IncuversSettingsHandler` that `Opt_PiLink.h`
calls. The class itself is declared elsewhere in the sketch; `F` is the type
of the values passed to `String(value, 2)` (temperatures and gas levels),
the modes are the integers passed to `String(value, DEC)`. -/
structure IncuversSettingsHandler (F : Type) where
  HasPiLink : Bool
  getFanMode : Int
  getHeatMode : Int
  getTemperatureSetPoint : F
  getChamberTemperature : F
  getDoorTemperature : F
  getOtherTemperature : F
  isDoorOn : Bool
  isDoorStepping : Bool
  isChamberOn : Bool
  isChamberStepping : Bool
  isHeatAlarmed : Bool
  getCO2Mode : Int
  getCO2SetPoint : F
  getCO2Level : F
  isCO2Open : Bool
  isCO2Stepping : Bool
  isCO2Alarmed : Bool
  getO2Mode : Int
  getO2SetPoint : F
  getO2Level : F
  isO2Open : Bool
  isO2Stepping : Bool
  isO2Alarmed : Bool

/-- What the two headers use from outside them, apart from the settings
handler: `floatString v n` is the text of `String(v, n)` for a value of type
`F`, `GetIndicator` is the sketch's indicator helper
`char GetIndicator(boolean, boolean, boolean, boolean)`, and `freeMemory` is
the reading appended in a `DEBUG_MEMORY` build (`none` when the flag is not
defined). -/
structure Sketch (F : Type) where
  floatString : F → Nat → List Char
  GetIndicator : Bool → Bool → Bool → Bool → Char
  freeMemory : Option Int

/-- A pointer to a settings handler. -/
abbrev Handle := Nat

/-- The settings handlers that pointers refer to, at one moment. -/
abbrev Mem (F : Type) := Handle → IncuversSettingsHandler F

/-! ## Opt_PiLink.h with INCLUDE_PILINK defined -/

namespace PiLinkIncluded

/-- The fields of `class IncuversPiLink`. -/
structure IncuversPiLink where
  incSet : Handle
  isEnabled : Bool
  deriving DecidableEq, Repr

namespace IncuversPiLink

/-- The empty `CheckForCommands`. -/
def CheckForCommands (Serial1 : HardwareSerial) : HardwareSerial := Serial1

/-- Lines 22-80 of `SendStatus`: the string `piLink` once every tag and value
has been appended. -/
def SendStatus.piLink {F : Type} (K : Sketch F) (incSet : IncuversSettingsHandler F) :
    List Char :=
  let piLink : List Char := "".toList
  -- Heating/Fan system
  let piLink := piLink ++ " FM ".toList
  let piLink := piLink ++ intString incSet.getFanMode DEC
  let piLink := piLink ++ " TM ".toList
  let piLink := piLink ++ intString incSet.getHeatMode DEC
  let piLink := piLink ++ " TP ".toList
  let piLink := piLink ++ K.floatString incSet.getTemperatureSetPoint 2
  let piLink := piLink ++ " TC ".toList
  let piLink := piLink ++ K.floatString incSet.getChamberTemperature 2
  let piLink := piLink ++ " TD ".toList
  let piLink := piLink ++ K.floatString incSet.getDoorTemperature 2
  let piLink := piLink ++ " TO ".toList
  let piLink := piLink ++ K.floatString incSet.getOtherTemperature 2
  let piLink := piLink ++ " TS ".toList
  let piLink := piLink ++ [K.GetIndicator incSet.isDoorOn incSet.isDoorStepping false true]
  let piLink := piLink ++ [K.GetIndicator incSet.isChamberOn incSet.isChamberStepping false true]
  let piLink := piLink ++ " TA ".toList
  let piLink := piLink ++ [K.GetIndicator incSet.isHeatAlarmed false false true]
  -- CO2 system
  let piLink := piLink ++ " CM ".toList
  let piLink := piLink ++ intString incSet.getCO2Mode DEC
  let piLink := piLink ++ " CP ".toList
  let piLink := piLink ++ K.floatString incSet.getCO2SetPoint 2
  let piLink := piLink ++ " CC ".toList
  let piLink := piLink ++ K.floatString incSet.getCO2Level 2
  let piLink := piLink ++ " CS ".toList
  let piLink := piLink ++ [K.GetIndicator incSet.isCO2Open incSet.isCO2Stepping false true]
  let piLink := piLink ++ " CA ".toList
  let piLink := piLink ++ [K.GetIndicator incSet.isCO2Alarmed false false true]
  -- O2 system
  let piLink := piLink ++ " OM ".toList
  let piLink := piLink ++ intString incSet.getO2Mode DEC
  let piLink := piLink ++ " OP ".toList
  let piLink := piLink ++ K.floatString incSet.getO2SetPoint 2
  let piLink := piLink ++ " OC ".toList
  let piLink := piLink ++ K.floatString incSet.getO2Level 2
  let piLink := piLink ++ " OS ".toList
  let piLink := piLink ++ [K.GetIndicator incSet.isO2Open incSet.isO2Stepping false true]
  let piLink := piLink ++ " OA ".toList
  let piLink := piLink ++ [K.GetIndicator incSet.isO2Alarmed false false true]
  -- Debugging
  match K.freeMemory with
  | some free => (piLink ++ " FM ".toList) ++ intString free DEC
  | none => piLink

/-- The loop `for (int i = 0; i < piLink.length(); i++) crc.update(piLink[i])`;
`fuel` bounds the number of iterations. -/
def SendStatus.crcLoop (piLink : List Char) : Nat → Nat → CRC32 → CRC32
  | 0, _, crc => crc
  | fuel + 1, i, crc =>
    if i < piLink.length then
      SendStatus.crcLoop piLink fuel (i + 1) (crc.update (piLink.getD i (Char.ofNat 0)))
    else crc

/-- The method `SendStatus`: build the line, run the CRC over it, print the
line, the divider, the CRC in hexadecimal and an empty `println`. -/
def SendStatus {F : Type} (K : Sketch F) (incSet : IncuversSettingsHandler F)
    (Serial1 : HardwareSerial) : HardwareSerial :=
  let piLink := SendStatus.piLink K incSet
  let crc := SendStatus.crcLoop piLink piLink.length 0 CRC32.init
  let Serial1 := Serial1.print piLink
  -- CRC to detect bad lines
  let Serial1 := Serial1.print "||||".toList
  let Serial1 := Serial1.printNum crc.finalize HEX
  Serial1.println

/-- The method `SetupPiLink`. -/
def SetupPiLink {F : Type} (mem : Mem F) (_this : IncuversPiLink) (iSettings : Handle)
    (Serial1 : HardwareSerial) : IncuversPiLink × HardwareSerial :=
  let this : IncuversPiLink := { _this with incSet := iSettings }
  if (mem this.incSet).HasPiLink then
    (this, Serial1.begin 9600 SERIAL_8E2)
  else
    (this, Serial1)

/-- The method `DoTick`. -/
def DoTick {F : Type} (K : Sketch F) (mem : Mem F) (this : IncuversPiLink)
    (Serial1 : HardwareSerial) : IncuversPiLink × HardwareSerial :=
  if (mem this.incSet).HasPiLink then
    let Serial1 := CheckForCommands Serial1
    let Serial1 := SendStatus K (mem this.incSet) Serial1
    (this, Serial1)
  else
    (this, Serial1)

end IncuversPiLink

end PiLinkIncluded

/-! ## Opt_PiLink.h without INCLUDE_PILINK -/

namespace PiLinkExcluded

/-- The stub `class IncuversPiLink` has no fields. -/
structure IncuversPiLink where
  deriving DecidableEq, Repr

namespace IncuversPiLink

/-- The empty `SetupPiLink` of the stub. -/
def SetupPiLink (this : IncuversPiLink) (_iSettings : Handle) (Serial1 : HardwareSerial) :
    IncuversPiLink × HardwareSerial :=
  (this, Serial1)

/-- The empty `DoTick` of the stub. -/
def DoTick (this : IncuversPiLink) (Serial1 : HardwareSerial) :
    IncuversPiLink × HardwareSerial :=
  (this, Serial1)

end IncuversPiLink

end PiLinkExcluded

/-! ## A concrete sketch for worked examples -/

/-- Modelled from the spec: the text of `String(value, 2)` for a physical
quantity. The spec fixes the format as 2-decimal fixed point; a quantity is
held here as a whole number of hundredths, printed as integer part, point and
two digits. Only the digit count `2` used by the sketch is modelled. -/
def centiString (v : Int) (_digits : Nat) : List Char :=
  (if v < 0 then ['-'] else []) ++ intString (v.natAbs / 100 : Nat) DEC ++
    ['.', digitChar (v.natAbs / 10 % 10), digitChar (v.natAbs % 10)]

/-- Modelled from the spec: the sketch helper `GetIndicator(on, stepping,
unused, neutral)`, defined outside the two headers. The spec gives the
precedence, first true wins: on gives the `'O'` indicator, stepping gives the
`'S'` indicator, otherwise the inactive indicator (written `'-'` here). -/
def GetIndicator (enabled stepping _altSymbol _altBlank : Bool) : Char :=
  if enabled then 'O' else if stepping then 'S' else '-'

/-- The sketch of a build without `DEBUG_MEMORY`, with quantities in
hundredths. -/
def refSketch : Sketch Int := ⟨centiString, GetIndicator, none⟩

/-- The example snapshot of the spec: fan mode 1, heat mode 2, set point
37.00, chamber 36.95, door 36.80, other 25.10, door on, chamber stepping, no
alarm, CO2 mode 0 at 5.00 reading 4.98, O2 mode 0 at 21.00 reading 20.95,
valves closed; telemetry enabled. -/
def exampleSnapshot : IncuversSettingsHandler Int where
  HasPiLink := true
  getFanMode := 1
  getHeatMode := 2
  getTemperatureSetPoint := 3700
  getChamberTemperature := 3695
  getDoorTemperature := 3680
  getOtherTemperature := 2510
  isDoorOn := true
  isDoorStepping := false
  isChamberOn := false
  isChamberStepping := true
  isHeatAlarmed := false
  getCO2Mode := 0
  getCO2SetPoint := 500
  getCO2Level := 498
  isCO2Open := false
  isCO2Stepping := false
  isCO2Alarmed := false
  getO2Mode := 0
  getO2SetPoint := 2100
  getO2Level := 2095
  isO2Open := false
  isO2Stepping := false
  isO2Alarmed := false

/-! ## The servo and the clock -/

/-- The `Servo` object of the Arduino Servo library as the rocker uses it:
the pin given to `attach`, the angle that `read` reports, and every angle
passed to `write`, oldest first. `read` reports the angle last written. -/
structure Servo where
  pin : Option Int
  angle : Int
  writes : List Int
  deriving DecidableEq, Repr

namespace Servo

/-- Model of `servo.attach(pin)`. -/
def attach (s : Servo) (pin : Int) : Servo :=
  { s with pin := some pin }

/-- Model of `servo.read()`. -/
def read (s : Servo) : Int := s.angle

/-- Model of `servo.write(value)`. -/
def write (s : Servo) (value : Int) : Servo :=
  { s with angle := value, writes := s.writes ++ [value] }

end Servo

/-- The value of `millis()` (an `unsigned long` counter reading) once stored
in a `long`: the low 32 bits, read as two's complement. -/
def toLong (millis : Nat) : Int :=
  if millis % 2 ^ 32 < 2 ^ 31 then (millis % 2 ^ 32 : Nat) else (millis % 2 ^ 32 : Nat) - 2 ^ 32

/-- A `long` result brought back into the 32-bit two's complement range. -/
def wrapLong (v : Int) : Int :=
  toLong (v % 2 ^ 32).toNat

/-! ## Opt_Rocker.h with INCLUDE_ROCKER defined -/

namespace RockerIncluded

/-- The macro `ROCKER_MAX_ANGLE`: largest deflection either side of 90 degrees. -/
def ROCKER_MAX_ANGLE : Int := 20

/-- The macro `ROCKER_SPEED`: (nominal) speed, degrees of rotation per second. -/
def ROCKER_SPEED : Int := 10

/-- The fields of `class IncuversRockingingSystem`. -/
structure IncuversRockingingSystem where
  pinAssignment : Int
  rocker_servo : Servo
  enabled : Bool
  currentlyOn : Bool
  reverse : Bool
  prevTime : Int
  tickTime : Int
  last_target : Int
  deriving DecidableEq, Repr

namespace IncuversRockingingSystem

/-- The method `SetupRocker`; `millis` is the counter reading at the call. -/
def SetupRocker (this : IncuversRockingingSystem) (pin : Int) (enabled : Bool)
    (millis : Nat) : IncuversRockingingSystem :=
  let this := { this with pinAssignment := pin }
  let this := { this with enabled := enabled }
  let this := { this with reverse := false }
  let this := { this with last_target := 0 }
  let this := { this with prevTime := toLong millis }
  { this with rocker_servo := this.rocker_servo.attach this.pinAssignment }

/-- The method `MakeSafeState` (its body is empty without `DEBUG_ROCKER`). -/
def MakeSafeState (this : IncuversRockingingSystem) : IncuversRockingingSystem := this

/-- The local `targetPos` of `DoTick`:
`current_pos + ROCKER_SPEED*(1-this->reverse*2)`. -/
def DoTick.targetPos (this : IncuversRockingingSystem) : Int :=
  let current_pos := this.rocker_servo.read
  current_pos + ROCKER_SPEED * (1 - (if this.reverse then 1 else 0) * 2)

/-- The method `DoTick`; `millis` is the counter reading at the call. Each of
the four `if` blocks ends in `return`; when none is entered the method falls
off its end. -/
def DoTick (this : IncuversRockingingSystem) (millis : Nat) : IncuversRockingingSystem :=
  let tickTime := toLong millis
  -- time since last call
  let _deltaTime := wrapLong (tickTime - this.prevTime)
  let targetPos := DoTick.targetPos this
  if (90 + ROCKER_MAX_ANGLE > targetPos) && !this.reverse then
    -- forward, far from end
    let this := { this with rocker_servo := this.rocker_servo.write targetPos }
    { this with prevTime := tickTime }
  else if (90 + ROCKER_MAX_ANGLE ≤ targetPos) && !this.reverse then
    -- forward, close to end
    let this := { this with rocker_servo := this.rocker_servo.write (ROCKER_MAX_ANGLE + 90) }
    let this := { this with prevTime := tickTime }
    { this with reverse := true }
  else if (90 - ROCKER_MAX_ANGLE ≥ targetPos) && this.reverse then
    -- backward, close to end
    let this := { this with rocker_servo := this.rocker_servo.write (90 - ROCKER_MAX_ANGLE) }
    let this := { this with prevTime := tickTime }
    { this with reverse := false }
  else if (90 - ROCKER_MAX_ANGLE < targetPos) && this.reverse then
    -- backward, far from end
    let this := { this with rocker_servo := this.rocker_servo.write targetPos }
    { this with prevTime := tickTime }
  else
    this

/-- The method `GetSerialAPIndicator`; `GetIndicator` is the sketch helper. -/
def GetSerialAPIndicator (GetIndicator : Bool → Bool → Bool → Bool → Char)
    (this : IncuversRockingingSystem) : Char :=
  GetIndicator this.currentlyOn false false true

/-- The method `GetNewUIIndicator`; `GetIndicator` is the sketch helper. -/
def GetNewUIIndicator (GetIndicator : Bool → Bool → Bool → Bool → Char)
    (this : IncuversRockingingSystem) : Char :=
  GetIndicator this.currentlyOn false false true

/-- Successive calls of `DoTick`, one per counter reading, oldest first. -/
def ticks (this : IncuversRockingingSystem) (readings : List Nat) : IncuversRockingingSystem :=
  readings.foldl DoTick this

/-- What an observer sees of the rocker after each of successive `DoTick`
calls: the angle the servo reports and the direction flag. -/
def trace (this : IncuversRockingingSystem) : List Nat → List (Int × Bool)
  | [] => []
  | millis :: rest =>
    let next := DoTick this millis
    (next.rocker_servo.read, next.reverse) :: trace next rest

/-- The angle passed to `write` by the last servo command, if any. -/
def lastCommand (this : IncuversRockingingSystem) : Option Int :=
  this.rocker_servo.writes.getLast?

end IncuversRockingingSystem

end RockerIncluded

/-! ## Opt_Rocker.h without INCLUDE_ROCKER -/

namespace RockerExcluded

/-- The stub `class IncuversRockingSystem` has no fields. -/
structure IncuversRockingSystem where
  deriving DecidableEq, Repr

namespace IncuversRockingSystem

/-- The empty `SetupRocker` of the stub; `W` is everything outside the object
(servo, serial ports, the rest of the sketch). -/
def SetupRocker {W : Type} (this : IncuversRockingSystem) (_pin : Int) (_enabled : Bool)
    (world : W) : IncuversRockingSystem × W :=
  (this, world)

/-- The empty `MakeSafeState` of the stub. -/
def MakeSafeState {W : Type} (this : IncuversRockingSystem) (world : W) :
    IncuversRockingSystem × W :=
  (this, world)

/-- The empty `DoTick` of the stub. -/
def DoTick {W : Type} (this : IncuversRockingSystem) (world : W) :
    IncuversRockingSystem × W :=
  (this, world)

/-- The empty `UpdateMode` of the stub. -/
def UpdateMode {W : Type} (this : IncuversRockingSystem) (_mode : Int) (world : W) :
    IncuversRockingSystem × W :=
  (this, world)

/-- The stub `GetSerialAPIndicator`: `return 'x';`. -/
def GetSerialAPIndicator (_this : IncuversRockingSystem) : Char := 'x'

/-- The stub `GetOldUIDisplay`: `return F("LED: not incl.");`. -/
def GetOldUIDisplay (_this : IncuversRockingSystem) : List Char := "LED: not incl.".toList

/-- The stub `GetNewUIIndicator`: `return 'x';`. -/
def GetNewUIIndicator (_this : IncuversRockingSystem) : Char := 'x'

/-- The stub `GetNewUIReading`: `return F("n/i");`. -/
def GetNewUIReading (_this : IncuversRockingSystem) : List Char := "n/i".toList

/-- One call of a method of the stub that returns nothing. -/
inductive Call where
  | SetupRocker (pin : Int) (enabled : Bool)
  | MakeSafeState
  | DoTick
  | UpdateMode (mode : Int)
  deriving DecidableEq, Repr

/-- Perform one call. -/
def Call.perform {W : Type} (c : Call) (st : IncuversRockingSystem × W) :
    IncuversRockingSystem × W :=
  match c with
  | .SetupRocker pin enabled => IncuversRockingSystem.SetupRocker st.1 pin enabled st.2
  | .MakeSafeState => IncuversRockingSystem.MakeSafeState st.1 st.2
  | .DoTick => IncuversRockingSystem.DoTick st.1 st.2
  | .UpdateMode mode => IncuversRockingSystem.UpdateMode st.1 mode st.2

/-- Perform a sequence of calls, oldest first. -/
def performAll {W : Type} (calls : List Call) (st : IncuversRockingSystem × W) :
    IncuversRockingSystem × W :=
  calls.foldl (fun st c => c.perform st) st

end IncuversRockingSystem

end RockerExcluded

/-! ## Vocabulary of the statements -/

/-- The sixteen uppercase hexadecimal digits, in order of value. -/
def hexDigits : List Char := "0123456789ABCDEF".toList

/-- The number that a string of uppercase hexadecimal digits denotes, most
significant digit first. -/
def hexValue (digits : List Char) : Nat :=
  digits.foldl (fun acc c => 16 * acc + hexDigits.indexOf c) 0

/-- The divider token printed between the line and its checksum. -/
def divider : List Char := "||||".toList

/-- The line terminator of `println`. -/
def lineEnd : List Char := [Char.ofNat 13, Char.ofNat 10]

/-- The example snapshot with the chamber at 36.94 instead of 36.95. -/
def coolerSnapshot : IncuversSettingsHandler Int :=
  { exampleSnapshot with getChamberTemperature := 3694 }

/-- The example snapshot on a unit without the Pi link. -/
def unlinkedSnapshot : IncuversSettingsHandler Int :=
  { exampleSnapshot with HasPiLink := false }

/-- A serial port that was never opened and has printed nothing. -/
def idleSerial : HardwareSerial := ⟨none, []⟩

/-- The eighteen tags of the status line, in the order of the spec. -/
def tagSequence : List String :=
  ["FM", "TM", "TP", "TC", "TD", "TO", "TS", "TA", "CM", "CP", "CC", "CS", "CA",
   "OM", "OP", "OC", "OS", "OA"]

/-- A line made of tags and values: for each tag in turn a space, the tag, a
space and the value that goes with it. -/
def joinFields (tags : List String) (values : List (List Char)) : List Char :=
  (List.zipWith (fun t v => ' ' :: t.toList ++ ' ' :: v) tags values).flatten

/-- A memory in which every pointer refers to the given settings. -/
def constMem {F : Type} (incSet : IncuversSettingsHandler F) : Mem F := fun _ => incSet

/-- A rocker on pin 9 whose servo reports the angle `a`, moving in reverse
when `reverse` is set; nothing was written to the servo yet. -/
def rockerAt (a : Int) (reverse : Bool) : RockerIncluded.IncuversRockingingSystem where
  pinAssignment := 9
  rocker_servo := ⟨some 9, a, []⟩
  enabled := true
  currentlyOn := false
  reverse := reverse
  prevTime := 0
  tickTime := 0
  last_target := 0

/-! ## Lemmas on number printing -/

theorem digitChar_mem_hexDigits (k : Nat) (hk : k < 16) : digitChar k ∈ hexDigits := by
  interval_cases k <;> decide

theorem indexOf_digitChar (k : Nat) (hk : k < 16) : hexDigits.indexOf (digitChar k) = k := by
  interval_cases k <;> decide

theorem hexValue_append_digit (ds : List Char) (k : Nat) (hk : k < 16) :
    hexValue (ds ++ [digitChar k]) = 16 * hexValue ds + k := by
  simp [hexValue, List.foldl_append, indexOf_digitChar k hk]

/-- The hexadecimal loop writes, in front of the buffer, digits that denote
`n`; their number is at most `fuel`, and at most `k` exactly when `n < 16 ^ k`. -/
theorem printNumberLoop_hex (fuel : Nat) :
    ∀ (n : Nat) (buf : List Char), n < 16 ^ (fuel + 1) →
      ∃ ds : List Char, printNumberLoop (fuel + 1) n 16 buf = ds ++ buf ∧
        (∀ c ∈ ds, c ∈ hexDigits) ∧ hexValue ds = n ∧ 1 ≤ ds.length ∧
        ds.length ≤ fuel + 1 ∧ (∀ k, 1 ≤ k → (ds.length ≤ k ↔ n < 16 ^ k)) ∧
        (ds.head? = some '0' → n = 0) := by
  induction fuel with
  | zero =>
    intro n buf hn
    have h0 : n / 16 = 0 := by omega
    refine ⟨[digitChar n], ?_, ?_, ?_, ?_, ?_, ?_, ?_⟩
    · simp [printNumberLoop, h0, Nat.mod_eq_of_lt (by omega : n < 16)]
    · intro c hc
      simp only [List.mem_singleton] at hc
      exact hc ▸ digitChar_mem_hexDigits n (by omega)
    · simpa [hexValue] using hexValue_append_digit [] n (by omega)
    · simp
    · simp
    · intro k hk
      have : (16:Nat) ^ 1 ≤ 16 ^ k := Nat.pow_le_pow_right (by norm_num) hk
      simp only [List.length_singleton]
      constructor
      · intro _; omega
      · intro _; exact hk
    · intro h
      have hn16 : n < 16 := by omega
      simp only [List.head?_cons, Option.some.injEq] at h
      interval_cases n <;> first | rfl | (revert h; decide)
  | succ fuel ih =>
    intro n buf hn
    by_cases h0 : n / 16 = 0
    · have hn16 : n < 16 := by omega
      refine ⟨[digitChar n], ?_, ?_, ?_, ?_, ?_, ?_, ?_⟩
      · simp [printNumberLoop, h0, Nat.mod_eq_of_lt hn16]
      · intro c hc
        simp only [List.mem_singleton] at hc
        exact hc ▸ digitChar_mem_hexDigits n hn16
      · simpa [hexValue] using hexValue_append_digit [] n hn16
      · simp
      · simp
      · intro k hk
        have : (16:Nat) ^ 1 ≤ 16 ^ k := Nat.pow_le_pow_right (by norm_num) hk
        simp only [List.length_singleton]
        constructor
        · intro _; omega
        · intro _; exact hk
      · intro h
        simp only [List.head?_cons, Option.some.injEq] at h
        interval_cases n <;> first | rfl | (revert h; decide)
    · have hdiv : n / 16 < 16 ^ (fuel + 1) := by
        rw [Nat.div_lt_iff_lt_mul (by norm_num)]
        simpa [Nat.pow_succ] using hn
      obtain ⟨ds, hds, hmem, hval, hlen1, hlen2, hlenk, hhead⟩ :=
        ih (n / 16) (digitChar (n % 16) :: buf) hdiv
      refine ⟨ds ++ [digitChar (n % 16)], ?_, ?_, ?_, ?_, ?_, ?_, ?_⟩
      · rw [printNumberLoop]
        simp only [h0, if_false]
        rw [hds]
        simp
      · intro c hc
        rcases List.mem_append.mp hc with h | h
        · exact hmem c h
        · simp only [List.mem_singleton] at h
          exact h ▸ digitChar_mem_hexDigits _ (Nat.mod_lt _ (by norm_num))
      · rw [hexValue_append_digit _ _ (Nat.mod_lt _ (by norm_num)), hval]
        omega
      · simp
      · simp only [List.length_append, List.length_singleton]
        omega
      · intro k hk
        simp only [List.length_append, List.length_singleton]
        rcases Nat.lt_or_ge k 2 with hk2 | hk2
        · have hk1 : k = 1 := by omega
          subst hk1
          constructor
          · intro h; omega
          · intro h; simp at h; omega
        · obtain ⟨j, rfl⟩ : ∃ j, k = j + 1 := ⟨k - 1, by omega⟩
          have hj := hlenk j (by omega)
          have hiff : n / 16 < 16 ^ j ↔ n < 16 ^ (j + 1) := by
            rw [Nat.div_lt_iff_lt_mul (by norm_num), Nat.pow_succ]
          constructor
          · intro h; exact hiff.mp (hj.mp (by omega))
          · intro h; have := hj.mpr (hiff.mpr h); omega
      · intro h
        exfalso
        apply h0
        apply hhead
        cases ds with
        | nil => simp at hlen1
        | cons d ds => simpa using h

/-- A 32-bit value printed in hexadecimal: the digits are uppercase
hexadecimal digits denoting the value, between one and eight of them, eight
exactly from `0x10000000` on, and with a leading zero only for zero. -/
theorem printNumber_hex (n : Nat) (hn : n < 2 ^ 32) :
    (∀ c ∈ printNumber n HEX, c ∈ hexDigits) ∧ hexValue (printNumber n HEX) = n ∧
      1 ≤ (printNumber n HEX).length ∧ (printNumber n HEX).length ≤ 8 ∧
      ((printNumber n HEX).length = 8 ↔ 0x10000000 ≤ n) ∧
      ((printNumber n HEX).head? = some '0' → n = 0) := by
  have h16 : n < 16 ^ (31 + 1) := lt_of_lt_of_le hn (by norm_num)
  obtain ⟨ds, hds, hmem, hval, hlen1, -, hlenk, hhead⟩ := printNumberLoop_hex 31 n [] h16
  have hp : printNumber n HEX = ds := by
    simp only [printNumber, HEX, Nat.mod_eq_of_lt hn]
    simpa using hds
  rw [hp]
  have h8 : ds.length ≤ 8 := (hlenk 8 (by norm_num)).mpr (by norm_num at hn ⊢; exact hn)
  have h7 := hlenk 7 (by norm_num)
  refine ⟨hmem, hval, hlen1, h8, ?_, hhead⟩
  constructor
  · intro h
    by_contra hlt
    have : ds.length ≤ 7 := h7.mpr (by norm_num at hlt ⊢; omega)
    omega
  · intro h
    by_contra hne
    have : n < 16 ^ 7 := h7.mp (by omega)
    norm_num at this
    omega

theorem crc32_lt (text : List Char) : crc32 text < 2 ^ 32 := by
  unfold crc32 CRC32.finalize
  exact Nat.mod_lt _ (by norm_num)

/-! ## Lemmas on the checksum loop -/

open PiLinkIncluded IncuversPiLink in
/-- With enough fuel the index loop folds `update` over the characters from
index `i` on. -/
theorem crcLoop_eq_foldl (piLink : List Char) (fuel : Nat) :
    ∀ (i : Nat) (crc : CRC32), piLink.length ≤ i + fuel →
      SendStatus.crcLoop piLink fuel i crc = (piLink.drop i).foldl CRC32.update crc := by
  induction fuel with
  | zero =>
    intro i crc h
    simp [SendStatus.crcLoop, List.drop_eq_nil_of_le (by omega : piLink.length ≤ i)]
  | succ fuel ih =>
    intro i crc h
    by_cases hi : i < piLink.length
    · rw [SendStatus.crcLoop, if_pos hi, ih (i + 1) _ (by omega),
        List.drop_eq_getElem_cons hi, List.getD_eq_getElem _ _ hi]
      rfl
    · rw [SendStatus.crcLoop, if_neg hi, List.drop_eq_nil_of_le (by omega)]
      rfl

open PiLinkIncluded IncuversPiLink in
/-- What `SendStatus` adds to the output: the line, the divider, the CRC-32
of the line in hexadecimal and the line terminator; the port configuration
is untouched. -/
theorem sendStatus_out {F : Type} (K : Sketch F) (incSet : IncuversSettingsHandler F)
    (Serial1 : HardwareSerial) :
    SendStatus K incSet Serial1 =
      ⟨Serial1.begun, Serial1.out ++ (SendStatus.piLink K incSet ++ divider ++
        printNumber (crc32 (SendStatus.piLink K incSet)) HEX ++ lineEnd)⟩ := by
  have hcrc := crcLoop_eq_foldl (SendStatus.piLink K incSet)
    (SendStatus.piLink K incSet).length 0 CRC32.init (by omega)
  simp only [List.drop_zero] at hcrc
  simp [SendStatus, hcrc, crc32, HardwareSerial.print, HardwareSerial.printNum,
    HardwareSerial.println, divider, lineEnd, List.append_assoc]

/-! ## The telemetry reporter -/

section PiLink

open PiLinkIncluded IncuversPiLink

/-- The text sent for the example snapshot. -/
theorem sendStatus_exampleSnapshot :
    (SendStatus refSketch exampleSnapshot idleSerial).out =
      (" FM 1 TM 2 TP 37.00 TC 36.95 TD 36.80 TO 25.10 TS OS TA - CM 0 CP 5.00 CC 4.98" ++
        " CS - CA - OM 0 OP 21.00 OC 20.95 OS - OA -||||64A71F7E").toList ++ lineEnd := by
  decide!

/-- The text sent for the cooler snapshot: its checksum has six digits. -/
theorem sendStatus_coolerSnapshot :
    (SendStatus refSketch coolerSnapshot idleSerial).out =
      SendStatus.piLink refSketch coolerSnapshot ++ divider ++ "9D79A4".toList ++ lineEnd := by
  decide!

/-- The standard check value of CRC-32: the text `123456789` gives
`0xCBF43926`. -/
theorem crc32_check_value : crc32 "123456789".toList = 0xCBF43926 := by
  decide!

/-- C1: with telemetry enabled, one `DoTick` appends to the serial output the
status line, the divider `||||`, the CRC-32 of the line alone written in
uppercase hexadecimal, and the line terminator, and nothing else; the
reporter and the port configuration are unchanged. -/
theorem doTick_emits_line_divider_checksum {F : Type} (K : Sketch F) (mem : Mem F)
    (this : IncuversPiLink) (Serial1 : HardwareSerial)
    (h : (mem this.incSet).HasPiLink = true) :
    ∃ digits : List Char,
      (DoTick K mem this Serial1).2.out =
        Serial1.out ++ (SendStatus.piLink K (mem this.incSet) ++ divider ++ digits ++ lineEnd) ∧
      digits = printNumber (crc32 (SendStatus.piLink K (mem this.incSet))) HEX ∧
      digits ≠ [] ∧ (∀ c ∈ digits, c ∈ hexDigits) ∧
      hexValue digits = crc32 (SendStatus.piLink K (mem this.incSet)) ∧
      (DoTick K mem this Serial1).2.begun = Serial1.begun ∧
      (DoTick K mem this Serial1).1 = this := by
  obtain ⟨hmem, hval, hlen, -, -, -⟩ :=
    printNumber_hex (crc32 (SendStatus.piLink K (mem this.incSet))) (crc32_lt _)
  refine ⟨_, ?_, rfl, ?_, hmem, hval, ?_, ?_⟩
  · simp [DoTick, h, CheckForCommands, sendStatus_out]
  · intro hnil
    rw [hnil] at hlen
    simp at hlen
  · simp [DoTick, h, CheckForCommands, sendStatus_out]
  · simp [DoTick, h]

/-- C1 at the example snapshot, on a port that has printed nothing. -/
theorem doTick_emits_line_divider_checksum_example :
    (constMem exampleSnapshot (0 : Handle)).HasPiLink = true ∧
    ∃ digits : List Char,
      (DoTick refSketch (constMem exampleSnapshot) ⟨0, false⟩ idleSerial).2.out =
        idleSerial.out ++ (SendStatus.piLink refSketch (constMem exampleSnapshot 0) ++
          divider ++ digits ++ lineEnd) ∧
      digits = printNumber (crc32 (SendStatus.piLink refSketch (constMem exampleSnapshot 0))) HEX ∧
      digits ≠ [] ∧ (∀ c ∈ digits, c ∈ hexDigits) ∧
      hexValue digits = crc32 (SendStatus.piLink refSketch (constMem exampleSnapshot 0)) ∧
      (DoTick refSketch (constMem exampleSnapshot) ⟨0, false⟩ idleSerial).2.begun =
        idleSerial.begun ∧
      (DoTick refSketch (constMem exampleSnapshot) ⟨0, false⟩ idleSerial).1 = ⟨0, false⟩ :=
  ⟨rfl, doTick_emits_line_divider_checksum refSketch (constMem exampleSnapshot) ⟨0, false⟩
    idleSerial rfl⟩

/-- C2: in a build without `DEBUG_MEMORY` the status line is, in this order,
the eighteen tags FM TM TP TC TD TO TS TA CM CP CC CS CA OM OP OC OS OA, each
between two spaces and followed by its value: modes as integers, quantities
through `String(value, 2)`, states and alarms as indicator characters (two
for TS). The tags are the same for every snapshot. -/
theorem piLink_fixed_tag_order {F : Type} (K : Sketch F) (incSet : IncuversSettingsHandler F)
    (h : K.freeMemory = none) :
    SendStatus.piLink K incSet = List.flatten [
      " FM ".toList, intString incSet.getFanMode DEC,
      " TM ".toList, intString incSet.getHeatMode DEC,
      " TP ".toList, K.floatString incSet.getTemperatureSetPoint 2,
      " TC ".toList, K.floatString incSet.getChamberTemperature 2,
      " TD ".toList, K.floatString incSet.getDoorTemperature 2,
      " TO ".toList, K.floatString incSet.getOtherTemperature 2,
      " TS ".toList, [K.GetIndicator incSet.isDoorOn incSet.isDoorStepping false true],
      [K.GetIndicator incSet.isChamberOn incSet.isChamberStepping false true],
      " TA ".toList, [K.GetIndicator incSet.isHeatAlarmed false false true],
      " CM ".toList, intString incSet.getCO2Mode DEC,
      " CP ".toList, K.floatString incSet.getCO2SetPoint 2,
      " CC ".toList, K.floatString incSet.getCO2Level 2,
      " CS ".toList, [K.GetIndicator incSet.isCO2Open incSet.isCO2Stepping false true],
      " CA ".toList, [K.GetIndicator incSet.isCO2Alarmed false false true],
      " OM ".toList, intString incSet.getO2Mode DEC,
      " OP ".toList, K.floatString incSet.getO2SetPoint 2,
      " OC ".toList, K.floatString incSet.getO2Level 2,
      " OS ".toList, [K.GetIndicator incSet.isO2Open incSet.isO2Stepping false true],
      " OA ".toList, [K.GetIndicator incSet.isO2Alarmed false false true]] ∧
    ∃ values : List (List Char), values.length = tagSequence.length ∧
      SendStatus.piLink K incSet = joinFields tagSequence values := by
  constructor
  · simp [SendStatus.piLink, h, List.append_assoc]
  · refine ⟨[intString incSet.getFanMode DEC, intString incSet.getHeatMode DEC,
      K.floatString incSet.getTemperatureSetPoint 2,
      K.floatString incSet.getChamberTemperature 2,
      K.floatString incSet.getDoorTemperature 2,
      K.floatString incSet.getOtherTemperature 2,
      [K.GetIndicator incSet.isDoorOn incSet.isDoorStepping false true,
       K.GetIndicator incSet.isChamberOn incSet.isChamberStepping false true],
      [K.GetIndicator incSet.isHeatAlarmed false false true],
      intString incSet.getCO2Mode DEC, K.floatString incSet.getCO2SetPoint 2,
      K.floatString incSet.getCO2Level 2,
      [K.GetIndicator incSet.isCO2Open incSet.isCO2Stepping false true],
      [K.GetIndicator incSet.isCO2Alarmed false false true],
      intString incSet.getO2Mode DEC, K.floatString incSet.getO2SetPoint 2,
      K.floatString incSet.getO2Level 2,
      [K.GetIndicator incSet.isO2Open incSet.isO2Stepping false true],
      [K.GetIndicator incSet.isO2Alarmed false false true]], rfl, ?_⟩
    simp [SendStatus.piLink, h, joinFields, tagSequence, List.append_assoc]

/-- C2 at the example snapshot of the spec, with the line it yields. -/
theorem piLink_fixed_tag_order_example :
    refSketch.freeMemory = none ∧
    ∃ values : List (List Char), values.length = tagSequence.length ∧
      SendStatus.piLink refSketch exampleSnapshot = joinFields tagSequence values ∧
      SendStatus.piLink refSketch exampleSnapshot =
        (" FM 1 TM 2 TP 37.00 TC 36.95 TD 36.80 TO 25.10 TS OS TA - CM 0 CP 5.00 CC 4.98" ++
          " CS - CA - OM 0 OP 21.00 OC 20.95 OS - OA -").toList := by
  refine ⟨rfl, ?_⟩
  obtain ⟨-, values, hlen, hjoin⟩ := piLink_fixed_tag_order refSketch exampleSnapshot rfl
  exact ⟨values, hlen, hjoin, by decide!⟩

/-- C7 as stated fails: it is not true that every status line is followed by
a checksum field of eight characters. The line of the cooler snapshot has the
CRC-32 `0x009D79A4`, printed as the six characters `9D79A4`. -/
theorem checksum_field_not_always_eight :
    ¬ ∀ incSet : IncuversSettingsHandler Int, ∃ field : List Char, field.length = 8 ∧
      (SendStatus refSketch incSet idleSerial).out =
        SendStatus.piLink refSketch incSet ++ divider ++ field ++ lineEnd := by
  intro hall
  obtain ⟨field, hlen, hout⟩ := hall coolerSnapshot
  rw [sendStatus_coolerSnapshot] at hout
  have hfield : "9D79A4".toList = field :=
    List.append_cancel_left (List.append_cancel_right hout)
  rw [← hfield] at hlen
  revert hlen
  decide

/-- C7 amended: the checksum field printed between the divider and the line
terminator is the CRC-32 of the line in uppercase hexadecimal without
leading zeros: it has between one and eight characters, eight exactly when
the CRC-32 is at least `0x10000000`, and it starts with `0` only when it is
the single character `0`. -/
theorem checksum_field_length {F : Type} (K : Sketch F) (incSet : IncuversSettingsHandler F)
    (Serial1 : HardwareSerial) :
    ∃ field : List Char,
      (SendStatus K incSet Serial1).out =
        Serial1.out ++ (SendStatus.piLink K incSet ++ divider ++ field ++ lineEnd) ∧
      (∀ c ∈ field, c ∈ hexDigits) ∧
      hexValue field = crc32 (SendStatus.piLink K incSet) ∧
      1 ≤ field.length ∧ field.length ≤ 8 ∧
      (field.length = 8 ↔ 0x10000000 ≤ crc32 (SendStatus.piLink K incSet)) ∧
      (field.head? = some '0' → field = ['0']) := by
  obtain ⟨hmem, hval, hlen1, hlen8, hiff, hhead⟩ :=
    printNumber_hex (crc32 (SendStatus.piLink K incSet)) (crc32_lt _)
  refine ⟨printNumber (crc32 (SendStatus.piLink K incSet)) HEX, ?_, hmem, hval, hlen1, hlen8,
    hiff, ?_⟩
  · rw [sendStatus_out]
  · intro h0
    rw [hhead h0]
    rfl

/-- C8: when the settings report no Pi link, `DoTick` leaves the serial port
(its output and its configuration) and the reporter as they were; in the
build without `INCLUDE_PILINK`, `SetupPiLink` and `DoTick` do the same for
every handle. -/
theorem doTick_disabled_is_silent {F : Type} (K : Sketch F) (mem : Mem F)
    (this : IncuversPiLink) (Serial1 : HardwareSerial)
    (h : (mem this.incSet).HasPiLink = false) :
    DoTick K mem this Serial1 = (this, Serial1) ∧
    (DoTick K mem this Serial1).2.out = Serial1.out ∧
    ∀ (stub : PiLinkExcluded.IncuversPiLink) (iSettings : Handle),
      PiLinkExcluded.IncuversPiLink.SetupPiLink stub iSettings Serial1 = (stub, Serial1) ∧
      PiLinkExcluded.IncuversPiLink.DoTick stub Serial1 = (stub, Serial1) := by
  refine ⟨?_, ?_, fun stub iSettings => ⟨rfl, rfl⟩⟩ <;> simp [DoTick, h]

/-- C8 at the example snapshot on a unit without the Pi link: the port that
had printed `abc` still holds just `abc`. -/
theorem doTick_disabled_is_silent_example :
    (constMem unlinkedSnapshot (0 : Handle)).HasPiLink = false ∧
    DoTick refSketch (constMem unlinkedSnapshot) ⟨0, false⟩ ⟨none, "abc".toList⟩ =
      (⟨0, false⟩, ⟨none, "abc".toList⟩) :=
  ⟨rfl, (doTick_disabled_is_silent refSketch (constMem unlinkedSnapshot) ⟨0, false⟩
    ⟨none, "abc".toList⟩ rfl).1⟩

end PiLink

/-! ## The rocker -/

section Rocker

open RockerIncluded IncuversRockingingSystem

theorem targetPos_eq (this : IncuversRockingingSystem) :
    DoTick.targetPos this =
      if this.reverse then this.rocker_servo.read - 10 else this.rocker_servo.read + 10 := by
  cases h : this.reverse
  · simp [DoTick.targetPos, ROCKER_SPEED, h]
  · simp [DoTick.targetPos, ROCKER_SPEED, h]
    omega

/-- First `if` of `DoTick`: forward, far from end. -/
theorem doTick_forward_far (this : IncuversRockingingSystem) (millis : Nat)
    (hd : this.reverse = false) (ht : DoTick.targetPos this < 110) :
    DoTick this millis =
      { this with rocker_servo := this.rocker_servo.write (DoTick.targetPos this),
                  prevTime := toLong millis } := by
  simp [DoTick, hd, ht, ROCKER_MAX_ANGLE]

/-- Second `if` of `DoTick`: forward, close to end. -/
theorem doTick_forward_end (this : IncuversRockingingSystem) (millis : Nat)
    (hd : this.reverse = false) (ht : 110 ≤ DoTick.targetPos this) :
    DoTick this millis =
      { this with rocker_servo := this.rocker_servo.write 110,
                  prevTime := toLong millis, reverse := true } := by
  have h1 : ¬ DoTick.targetPos this < 110 := by omega
  simp [DoTick, hd, h1, ht, ROCKER_MAX_ANGLE]

/-- Third `if` of `DoTick`: backward, close to end. -/
theorem doTick_reverse_end (this : IncuversRockingingSystem) (millis : Nat)
    (hd : this.reverse = true) (ht : DoTick.targetPos this ≤ 70) :
    DoTick this millis =
      { this with rocker_servo := this.rocker_servo.write 70,
                  prevTime := toLong millis, reverse := false } := by
  have h1 : ¬ 70 < DoTick.targetPos this := by omega
  simp [DoTick, hd, h1, ht, ROCKER_MAX_ANGLE]

/-- Fourth `if` of `DoTick`: backward, far from end. -/
theorem doTick_reverse_far (this : IncuversRockingingSystem) (millis : Nat)
    (hd : this.reverse = true) (ht : 70 < DoTick.targetPos this) :
    DoTick this millis =
      { this with rocker_servo := this.rocker_servo.write (DoTick.targetPos this),
                  prevTime := toLong millis } := by
  have h1 : ¬ DoTick.targetPos this ≤ 70 := by omega
  simp [DoTick, hd, h1, ht, ROCKER_MAX_ANGLE]

/-- While the servo reports an angle within its range of 0 to 180 degrees,
every angle the rocker writes is within that range as well, so the servo
takes it as written and 16-bit `int` arithmetic does not overflow. -/
theorem doTick_command_in_servo_range (this : IncuversRockingingSystem) (millis : Nat)
    (h0 : 0 ≤ this.rocker_servo.read) (h180 : this.rocker_servo.read ≤ 180) :
    0 ≤ (DoTick this millis).rocker_servo.read ∧ (DoTick this millis).rocker_servo.read ≤ 180 := by
  have ht := targetPos_eq this
  cases hd : this.reverse
  · rw [hd] at ht
    simp only [Bool.false_eq_true, if_false] at ht
    rcases lt_or_le (DoTick.targetPos this) 110 with h | h
    · rw [doTick_forward_far this millis hd h]
      simp only [Servo.write, Servo.read] at *
      omega
    · rw [doTick_forward_end this millis hd h]
      simp [Servo.write, Servo.read]
  · rw [hd] at ht
    simp only [if_true] at ht
    rcases le_or_lt (DoTick.targetPos this) 70 with h | h
    · rw [doTick_reverse_end this millis hd h]
      simp [Servo.write, Servo.read]
    · rw [doTick_reverse_far this millis hd h]
      simp only [Servo.write, Servo.read] at *
      omega

/-- C3: with `a` the angle the servo reports and `target` equal to `a + 10`
moving forward and `a - 10` in reverse, `DoTick` issues the servo command and
leaves the direction given by the four rows: forward and `target < 110`,
command `target`, stay forward; forward and `target >= 110`, command 110,
become reverse; reverse and `target <= 70`, command 70, become forward;
reverse and `target > 70`, command `target`, stay reverse. -/
theorem doTick_four_row_table (this : IncuversRockingingSystem) (millis : Nat) :
    (DoTick.targetPos this =
      if this.reverse then this.rocker_servo.read - ROCKER_SPEED
      else this.rocker_servo.read + ROCKER_SPEED) ∧
    (this.reverse = false → DoTick.targetPos this < 110 →
      (DoTick this millis).rocker_servo.writes =
        this.rocker_servo.writes ++ [DoTick.targetPos this] ∧
      (DoTick this millis).reverse = false) ∧
    (this.reverse = false → 110 ≤ DoTick.targetPos this →
      (DoTick this millis).rocker_servo.writes = this.rocker_servo.writes ++ [110] ∧
      (DoTick this millis).reverse = true) ∧
    (this.reverse = true → DoTick.targetPos this ≤ 70 →
      (DoTick this millis).rocker_servo.writes = this.rocker_servo.writes ++ [70] ∧
      (DoTick this millis).reverse = false) ∧
    (this.reverse = true → 70 < DoTick.targetPos this →
      (DoTick this millis).rocker_servo.writes =
        this.rocker_servo.writes ++ [DoTick.targetPos this] ∧
      (DoTick this millis).reverse = true) := by
  refine ⟨by simpa [ROCKER_SPEED] using targetPos_eq this, ?_, ?_, ?_, ?_⟩
  · intro hd ht
    rw [doTick_forward_far this millis hd ht]
    exact ⟨rfl, hd⟩
  · intro hd ht
    rw [doTick_forward_end this millis hd ht]
    exact ⟨rfl, rfl⟩
  · intro hd ht
    rw [doTick_reverse_end this millis hd ht]
    exact ⟨rfl, rfl⟩
  · intro hd ht
    rw [doTick_reverse_far this millis hd ht]
    exact ⟨rfl, hd⟩

/-- C4 as stated fails: it is not true that for every current angle and
direction the angle commanded by `DoTick` lies in [70, 110]. With the servo
at 0 degrees and the rocker moving forward, `DoTick` commands 10. -/
theorem commanded_angle_not_always_in_range :
    ¬ ∀ (this : IncuversRockingingSystem) (millis : Nat),
      ∃ x : Int, lastCommand (DoTick this millis) = some x ∧ 70 ≤ x ∧ x ≤ 110 := by
  intro hall
  obtain ⟨x, hx, h70, -⟩ := hall (rockerAt 0 false) 0
  have hcmd : lastCommand (DoTick (rockerAt 0 false) 0) = some 10 := by decide
  rw [hcmd] at hx
  cases hx
  omega

/-- C4 amended: `DoTick` clamps the angle at the limit the rocker is moving
towards. With `a` the angle the servo reports, it commands `min (a + 10) 110`
moving forward and `max (a - 10) 70` in reverse; so the commanded angle is at
most 110 moving forward, at least 70 in reverse, and lies in [70, 110]
exactly when `60 <= a` (forward) or `a <= 120` (reverse). -/
theorem commanded_angle_clamped_ahead (this : IncuversRockingingSystem) (millis : Nat) :
    ∃ x : Int,
      (DoTick this millis).rocker_servo.writes = this.rocker_servo.writes ++ [x] ∧
      lastCommand (DoTick this millis) = some x ∧
      x = (if this.reverse then max (this.rocker_servo.read - 10) 70
           else min (this.rocker_servo.read + 10) 110) ∧
      (this.reverse = false → x ≤ 110) ∧
      (this.reverse = true → 70 ≤ x) ∧
      ((70 ≤ x ∧ x ≤ 110) ↔
        if this.reverse then this.rocker_servo.read ≤ 120 else 60 ≤ this.rocker_servo.read) := by
  have ht := targetPos_eq this
  cases hd : this.reverse
  · rw [hd] at ht
    simp only [Bool.false_eq_true, if_false] at ht
    rcases lt_or_le (DoTick.targetPos this) 110 with h | h
    · refine ⟨DoTick.targetPos this, ?_, ?_, ?_, ?_, ?_, ?_⟩
      · rw [doTick_forward_far this millis hd h]; rfl
      · rw [doTick_forward_far this millis hd h]; simp [lastCommand, Servo.write]
      · simp only [Bool.false_eq_true, if_false]; rw [ht] at h ⊢; omega
      · intro _; omega
      · intro hc; cases hc
      · simp only [Bool.false_eq_true, if_false]; omega
    · refine ⟨110, ?_, ?_, ?_, ?_, ?_, ?_⟩
      · rw [doTick_forward_end this millis hd h]; rfl
      · rw [doTick_forward_end this millis hd h]; simp [lastCommand, Servo.write]
      · simp only [Bool.false_eq_true, if_false]; omega
      · intro _; omega
      · intro hc; cases hc
      · simp only [Bool.false_eq_true, if_false]; omega
  · rw [hd] at ht
    simp only [if_true] at ht
    rcases le_or_lt (DoTick.targetPos this) 70 with h | h
    · refine ⟨70, ?_, ?_, ?_, ?_, ?_, ?_⟩
      · rw [doTick_reverse_end this millis hd h]; rfl
      · rw [doTick_reverse_end this millis hd h]; simp [lastCommand, Servo.write]
      · simp only [if_true]; omega
      · intro hc; cases hc
      · intro _; omega
      · simp only [if_true]; omega
    · refine ⟨DoTick.targetPos this, ?_, ?_, ?_, ?_, ?_, ?_⟩
      · rw [doTick_reverse_far this millis hd h]; rfl
      · rw [doTick_reverse_far this millis hd h]; simp [lastCommand, Servo.write]
      · simp only [if_true]; rw [ht] at h ⊢; omega
      · intro hc; cases hc
      · intro _; omega
      · simp only [if_true]; omega

/-- C5: `DoTick` changes the direction flag exactly when the target reaches
or passes the limit ahead: `target >= 110` moving forward, or `target <= 70`
in reverse. Otherwise the direction after the tick is the one before. -/
theorem direction_flips_iff_boundary (this : IncuversRockingingSystem) (millis : Nat) :
    ((DoTick this millis).reverse ≠ this.reverse ↔
      (this.reverse = false ∧ 110 ≤ DoTick.targetPos this) ∨
      (this.reverse = true ∧ DoTick.targetPos this ≤ 70)) ∧
    ((DoTick this millis).reverse = this.reverse ↔
      (this.reverse = false ∧ DoTick.targetPos this < 110) ∨
      (this.reverse = true ∧ 70 < DoTick.targetPos this)) := by
  cases hd : this.reverse
  · rcases lt_or_le (DoTick.targetPos this) 110 with h | h
    · rw [doTick_forward_far this millis hd h]
      simp [hd, h]
    · rw [doTick_forward_end this millis hd h]
      simp [h, not_lt.mpr h]
  · rcases le_or_lt (DoTick.targetPos this) 70 with h | h
    · rw [doTick_reverse_end this millis hd h]
      simp [h, not_lt.mpr h]
    · rw [doTick_reverse_far this millis hd h]
      simp [hd, h, not_le.mpr h]

/-- C6: from 90 degrees moving forward, six successive calls of `DoTick`
command 100 (still forward), 110 (now reverse), then 100, 90, 80 (still
reverse) and 70 (forward again), whatever the other fields of the rocker and
the counter readings are. -/
theorem boundary_reversal_scenario (this : IncuversRockingingSystem)
    (t1 t2 t3 t4 t5 t6 : Nat) :
    trace { this with rocker_servo := { this.rocker_servo with angle := 90 }, reverse := false }
        [t1, t2, t3, t4, t5, t6] =
      [(100, false), (110, true), (100, true), (90, true), (80, true), (70, false)] ∧
    (ticks { this with rocker_servo := { this.rocker_servo with angle := 90 }, reverse := false }
        [t1, t2, t3, t4, t5, t6]).rocker_servo.writes =
      this.rocker_servo.writes ++ [100, 110, 100, 90, 80, 70] := by
  constructor
  · simp [trace, DoTick, DoTick.targetPos, ROCKER_SPEED, ROCKER_MAX_ANGLE, Servo.read,
      Servo.write]
  · simp [ticks, DoTick, DoTick.targetPos, ROCKER_SPEED, ROCKER_MAX_ANGLE, Servo.read,
      Servo.write]

end Rocker

/-! ## The rocker compiled out -/

section RockerStub

open RockerExcluded IncuversRockingSystem

/-- C9: in the build without `INCLUDE_ROCKER`, `SetupRocker`, `MakeSafeState`,
`DoTick` and `UpdateMode` leave the object and everything outside it (servo
included) as they were, also after any sequence of such calls, and after any
such sequence `GetSerialAPIndicator` and `GetNewUIIndicator` return `'x'`. -/
theorem stub_is_neutral {W : Type} (calls : List Call) (this : IncuversRockingSystem)
    (world : W) (pin mode : Int) (enabled : Bool) :
    SetupRocker this pin enabled world = (this, world) ∧
    MakeSafeState this world = (this, world) ∧
    DoTick this world = (this, world) ∧
    UpdateMode this mode world = (this, world) ∧
    performAll calls (this, world) = (this, world) ∧
    GetSerialAPIndicator (performAll calls (this, world)).1 = 'x' ∧
    GetNewUIIndicator (performAll calls (this, world)).1 = 'x' := by
  have hrun : performAll calls (this, world) = (this, world) := by
    induction calls with
    | nil => rfl
    | cons c rest ih =>
      have hc : c.perform (this, world) = (this, world) := by cases c <;> rfl
      simpa [performAll, List.foldl_cons, hc] using ih
  exact ⟨rfl, rfl, rfl, rfl, hrun, rfl, rfl⟩

/-- C10 as stated fails: the stub `GetOldUIDisplay` does not return the text
`not incl.`; it returns `LED: not incl.`. -/
theorem stub_display_is_not_bare_fallback :
    ¬ ∀ this : IncuversRockingSystem,
      GetNewUIReading this = "n/i".toList ∧ GetOldUIDisplay this = "not incl.".toList := by
  intro hall
  have h := (hall ⟨⟩).2
  revert h
  decide

/-- C10 amended: in the build without `INCLUDE_ROCKER`, `GetNewUIReading`
returns `n/i`, and `GetOldUIDisplay` returns a label followed by the fallback
text: a string that ends with `not incl.`. -/
theorem stub_display_ends_with_fallback (this : IncuversRockingSystem) :
    GetNewUIReading this = "n/i".toList ∧
    "not incl.".toList <:+ GetOldUIDisplay this ∧
    "not incl.".toList.length < (GetOldUIDisplay this).length := by
  refine ⟨rfl, ⟨"LED: ".toList, rfl⟩, ?_⟩
  cases this
  decide

end RockerStub

/-! ## The rocker step in closed form -/

section RockerStep

open RockerIncluded IncuversRockingingSystem

/-- Every call of `DoTick` writes one angle, refreshes the time stamp and
sets the direction: `min (a + 10) 110` and `110 <= a + 10` moving forward,
`max (a - 10) 70` and `70 < a - 10` in reverse, with `a` the angle read. -/
theorem doTick_eq (this : IncuversRockingingSystem) (millis : Nat) :
    DoTick this millis =
      { this with
        rocker_servo := this.rocker_servo.write
          (if this.reverse then max (this.rocker_servo.read - 10) 70
           else min (this.rocker_servo.read + 10) 110),
        prevTime := toLong millis,
        reverse := if this.reverse then decide (70 < this.rocker_servo.read - 10)
                   else decide (110 ≤ this.rocker_servo.read + 10) } := by
  have ht := targetPos_eq this
  cases hd : this.reverse
  · rw [hd] at ht
    simp only [Bool.false_eq_true, if_false] at ht ⊢
    rcases lt_or_le (DoTick.targetPos this) 110 with h | h
    · rw [doTick_forward_far this millis hd h, ht]
      rw [ht] at h
      simp [min_eq_left (le_of_lt h), not_le.mpr h, hd]
    · rw [doTick_forward_end this millis hd h]
      rw [ht] at h
      simp [min_eq_right h, h]
  · rw [hd] at ht
    simp only [if_true] at ht ⊢
    rcases le_or_lt (DoTick.targetPos this) 70 with h | h
    · rw [doTick_reverse_end this millis hd h]
      rw [ht] at h
      simp [max_eq_right h, not_lt.mpr h]
    · rw [doTick_reverse_far this millis hd h, ht]
      rw [ht] at h
      simp [max_eq_left (le_of_lt h), h, hd]

theorem ticks_nil (this : IncuversRockingingSystem) : ticks this [] = this := rfl

theorem ticks_cons (this : IncuversRockingingSystem) (millis : Nat) (rest : List Nat) :
    ticks this (millis :: rest) = ticks (DoTick this millis) rest := rfl

/-- The last command after a tick is the angle the servo then reports. -/
theorem lastCommand_doTick (this : IncuversRockingingSystem) (millis : Nat) :
    lastCommand (DoTick this millis) = some (DoTick this millis).rocker_servo.read := by
  rw [doTick_eq]
  simp [lastCommand, Servo.write, Servo.read]

/-- What `DoTick` leaves alone: the pin, both flags `enabled` and
`currentlyOn`, `last_target`, the member `tickTime` and the pin the servo is
attached to. -/
theorem doTick_frame (this : IncuversRockingingSystem) (millis : Nat) :
    (DoTick this millis).pinAssignment = this.pinAssignment ∧
    (DoTick this millis).enabled = this.enabled ∧
    (DoTick this millis).currentlyOn = this.currentlyOn ∧
    (DoTick this millis).last_target = this.last_target ∧
    (DoTick this millis).tickTime = this.tickTime ∧
    (DoTick this millis).rocker_servo.pin = this.rocker_servo.pin := by
  rw [doTick_eq]
  simp [Servo.write]

/-- The same for any number of ticks. -/
theorem ticks_frame (readings : List Nat) :
    ∀ this : IncuversRockingingSystem,
      (ticks this readings).pinAssignment = this.pinAssignment ∧
      (ticks this readings).enabled = this.enabled ∧
      (ticks this readings).currentlyOn = this.currentlyOn ∧
      (ticks this readings).last_target = this.last_target ∧
      (ticks this readings).tickTime = this.tickTime ∧
      (ticks this readings).rocker_servo.pin = this.rocker_servo.pin := by
  induction readings with
  | nil => intro this; exact ⟨rfl, rfl, rfl, rfl, rfl, rfl⟩
  | cons millis rest ih =>
    intro this
    rw [ticks_cons]
    obtain ⟨h1, h2, h3, h4, h5, h6⟩ := ih (DoTick this millis)
    obtain ⟨g1, g2, g3, g4, g5, g6⟩ := doTick_frame this millis
    exact ⟨h1.trans g1, h2.trans g2, h3.trans g3, h4.trans g4, h5.trans g5, h6.trans g6⟩

/-- One tick moves an angle between `lo` and `hi` to one between
`min (lo + 10) 70` and `max (hi - 10) 110`, whatever the direction. -/
theorem doTick_bounds (this : IncuversRockingingSystem) (millis : Nat) (lo hi : Int)
    (hlo : lo ≤ this.rocker_servo.read) (hhi : this.rocker_servo.read ≤ hi) :
    min (lo + 10) 70 ≤ (DoTick this millis).rocker_servo.read ∧
    (DoTick this millis).rocker_servo.read ≤ max (hi - 10) 110 := by
  rw [doTick_eq]
  cases hd : this.reverse <;> simp only [Servo.write, Servo.read] at * <;>
    simp only [Bool.false_eq_true, if_false, if_true] <;> omega

/-- After `n` ticks an angle that started between `lo` and `hi` lies between
`min (lo + 10 * n) 70` and `max (hi - 10 * n) 110`. -/
theorem ticks_bounds (readings : List Nat) :
    ∀ (this : IncuversRockingingSystem) (lo hi : Int),
      lo ≤ this.rocker_servo.read → this.rocker_servo.read ≤ hi →
      min (lo + 10 * readings.length) 70 ≤ (ticks this readings).rocker_servo.read ∧
      (ticks this readings).rocker_servo.read ≤ max (hi - 10 * readings.length) 110 := by
  induction readings with
  | nil =>
    intro this lo hi hlo hhi
    simp only [ticks_nil, List.length_nil, Nat.cast_zero]
    omega
  | cons millis rest ih =>
    intro this lo hi hlo hhi
    rw [ticks_cons]
    obtain ⟨h1, h2⟩ := doTick_bounds this millis lo hi hlo hhi
    obtain ⟨h3, h4⟩ := ih (DoTick this millis) _ _ h1 h2
    simp only [List.length_cons, Nat.cast_add, Nat.cast_one]
    omega

/-- After at least one tick the last command is the angle the servo
reports. -/
theorem lastCommand_ticks (readings : List Nat) :
    ∀ this : IncuversRockingingSystem, readings ≠ [] →
      lastCommand (ticks this readings) = some (ticks this readings).rocker_servo.read := by
  induction readings with
  | nil => intro this h; exact absurd rfl h
  | cons millis rest ih =>
    intro this _
    rw [ticks_cons]
    cases rest with
    | nil => exact lastCommand_doTick this millis
    | cons m rest => exact ih (DoTick this millis) (by simp)

/-- Every tick adds one entry to the servo's list of commands. -/
theorem ticks_writes_length (readings : List Nat) :
    ∀ this : IncuversRockingingSystem,
      (ticks this readings).rocker_servo.writes.length =
        this.rocker_servo.writes.length + readings.length := by
  induction readings with
  | nil => intro this; rfl
  | cons millis rest ih =>
    intro this
    rw [ticks_cons, ih (DoTick this millis), doTick_eq]
    simp [Servo.write]
    omega

/-- C11: the step does not depend on time. Two rockers that agree on the
angle read from the servo and on the direction, whatever their last-update
time stamps and whatever the two counter readings (wrapped or not), are
given the same command by `DoTick` and end in the same direction. -/
theorem step_independent_of_time (s1 s2 : IncuversRockingingSystem) (m1 m2 : Nat)
    (ha : s1.rocker_servo.read = s2.rocker_servo.read) (hd : s1.reverse = s2.reverse) :
    (∃ x : Int, lastCommand (DoTick s1 m1) = some x ∧ lastCommand (DoTick s2 m2) = some x) ∧
    (DoTick s1 m1).rocker_servo.read = (DoTick s2 m2).rocker_servo.read ∧
    (DoTick s1 m1).reverse = (DoTick s2 m2).reverse := by
  have hread : (DoTick s1 m1).rocker_servo.read = (DoTick s2 m2).rocker_servo.read := by
    rw [doTick_eq s1 m1, doTick_eq s2 m2]
    simp [Servo.write, Servo.read, ← hd] at ha ⊢
    rw [ha]
  refine ⟨⟨(DoTick s1 m1).rocker_servo.read, lastCommand_doTick s1 m1, ?_⟩, hread, ?_⟩
  · rw [hread]
    exact lastCommand_doTick s2 m2
  · rw [doTick_eq s1 m1, doTick_eq s2 m2]
    simp only [← hd, ← ha]

/-- C11 at 100 degrees in reverse: a rocker last updated at time 0 and
ticked at reading 1000, and one last updated just before the counter wrapped
and ticked at reading 50 after the wrap, are both commanded to 90 and stay
in reverse. -/
theorem step_independent_of_time_example :
    (rockerAt 100 true).rocker_servo.read =
      ({ rockerAt 100 true with prevTime := toLong 4294967000 } :
        IncuversRockingingSystem).rocker_servo.read ∧
    (∃ x : Int, lastCommand (DoTick (rockerAt 100 true) 1000) = some x ∧
      lastCommand (DoTick { rockerAt 100 true with prevTime := toLong 4294967000 }
        (4294967296 + 50)) = some x) ∧
    lastCommand (DoTick (rockerAt 100 true) 1000) = some 90 ∧
    (DoTick (rockerAt 100 true) 1000).reverse =
      (DoTick { rockerAt 100 true with prevTime := toLong 4294967000 }
        (4294967296 + 50)).reverse :=
  ⟨rfl,
   (step_independent_of_time (rockerAt 100 true)
      { rockerAt 100 true with prevTime := toLong 4294967000 } 1000 (4294967296 + 50)
      rfl rfl).1,
   by decide,
   (step_independent_of_time (rockerAt 100 true)
      { rockerAt 100 true with prevTime := toLong 4294967000 } 1000 (4294967296 + 50)
      rfl rfl).2.2⟩

/-- C12 as stated fails: it is not true that for every reading `t` of the
32-bit counter `SetupRocker` leaves the last-update time equal to `t`. Called
at reading 3000000000 it leaves `prevTime = -1294967296`. -/
theorem setupRocker_time_is_not_always_reading :
    ¬ ∀ (this : IncuversRockingingSystem) (pin : Int) (enabled : Bool) (t : Nat),
      t < 2 ^ 32 → (SetupRocker this pin enabled t).prevTime = (t : Int) := by
  intro hall
  have h := hall (rockerAt 90 false) 9 true 3000000000 (by norm_num)
  have hval : (SetupRocker (rockerAt 90 false) 9 true 3000000000).prevTime = -1294967296 := by
    decide
  rw [hval] at h
  omega

/-- C12 amended: `SetupRocker(pin, enabled)` called at counter reading `t`
stores the pin and the flag, sets the direction to forward and `last_target`
to 0, and attaches the servo to the pin. The last-update time it stores is
the reading as a signed 32-bit `long`: `t` itself while `t < 2 ^ 31`, and
`t - 2 ^ 32` for a reading from `2 ^ 31` up to the end of the counter; in
both cases the same 32 bits as the reading. The flag `currentlyOn`, the
member `tickTime` and the servo's angle and commands are left as they were. -/
theorem setupRocker_stores (this : IncuversRockingingSystem) (pin : Int) (enabled : Bool)
    (t : Nat) :
    (SetupRocker this pin enabled t).pinAssignment = pin ∧
    (SetupRocker this pin enabled t).enabled = enabled ∧
    (SetupRocker this pin enabled t).reverse = false ∧
    (SetupRocker this pin enabled t).last_target = 0 ∧
    (SetupRocker this pin enabled t).prevTime = toLong t ∧
    (SetupRocker this pin enabled t).prevTime % 2 ^ 32 = (t : Int) % 2 ^ 32 ∧
    (t < 2 ^ 31 → (SetupRocker this pin enabled t).prevTime = t) ∧
    (2 ^ 31 ≤ t → t < 2 ^ 32 →
      (SetupRocker this pin enabled t).prevTime = (t : Int) - 2 ^ 32) ∧
    (- 2 ^ 31 ≤ (SetupRocker this pin enabled t).prevTime ∧
      (SetupRocker this pin enabled t).prevTime < 2 ^ 31) ∧
    (SetupRocker this pin enabled t).rocker_servo.pin = some pin ∧
    (SetupRocker this pin enabled t).currentlyOn = this.currentlyOn ∧
    (SetupRocker this pin enabled t).tickTime = this.tickTime ∧
    (SetupRocker this pin enabled t).rocker_servo.angle = this.rocker_servo.angle ∧
    (SetupRocker this pin enabled t).rocker_servo.writes = this.rocker_servo.writes := by
  refine ⟨rfl, rfl, rfl, rfl, rfl, ?_, ?_, ?_, ?_, rfl, rfl, rfl, rfl, rfl⟩
  · show toLong t % 2 ^ 32 = (t : Int) % 2 ^ 32
    unfold toLong
    split <;> push_cast <;> omega
  · intro ht
    show toLong t = t
    unfold toLong
    have h1 : t % 2 ^ 32 = t := Nat.mod_eq_of_lt (by omega)
    rw [h1, if_pos ht]
  · intro hlo hhi
    show toLong t = (t : Int) - 2 ^ 32
    unfold toLong
    have h1 : t % 2 ^ 32 = t := Nat.mod_eq_of_lt hhi
    rw [h1, if_neg (by omega)]
  · show - 2 ^ 31 ≤ toLong t ∧ toLong t < 2 ^ 31
    unfold toLong
    split <;> push_cast <;> omega

/-- C14: of the four guards of `DoTick` exactly one holds, whatever the
angle and the direction; so every call issues exactly one servo command and
refreshes the time stamp, and the end of the method after the fourth `if`
is never reached. -/
theorem doTick_exactly_one_branch (this : IncuversRockingingSystem) (millis : Nat) :
    [decide (90 + ROCKER_MAX_ANGLE > DoTick.targetPos this) && !this.reverse,
     decide (90 + ROCKER_MAX_ANGLE ≤ DoTick.targetPos this) && !this.reverse,
     decide (90 - ROCKER_MAX_ANGLE ≥ DoTick.targetPos this) && this.reverse,
     decide (90 - ROCKER_MAX_ANGLE < DoTick.targetPos this) && this.reverse].count true = 1 ∧
    (∃ x : Int, (DoTick this millis).rocker_servo.writes = this.rocker_servo.writes ++ [x]) ∧
    (DoTick this millis).rocker_servo.writes.length = this.rocker_servo.writes.length + 1 ∧
    (DoTick this millis).prevTime = toLong millis ∧
    DoTick this millis ≠ this := by
  have hw : (DoTick this millis).rocker_servo.writes.length =
      this.rocker_servo.writes.length + 1 := by
    rw [doTick_eq]; simp [Servo.write]
  refine ⟨?_, ?_, hw, ?_, ?_⟩
  · cases hd : this.reverse
    · rcases lt_or_le (DoTick.targetPos this) 110 with h | h
      · simp [ROCKER_MAX_ANGLE, h, not_le.mpr h]
      · simp [ROCKER_MAX_ANGLE, h, not_lt.mpr h]
    · rcases le_or_lt (DoTick.targetPos this) 70 with h | h
      · simp [ROCKER_MAX_ANGLE, h, not_lt.mpr h]
      · simp [ROCKER_MAX_ANGLE, h, not_le.mpr h]
  · rw [doTick_eq]; exact ⟨_, rfl⟩
  · rw [doTick_eq]
  · intro heq
    rw [heq] at hw
    omega

/-- C15: the range [70, 110] is kept by the rocker step. From an angle in
the range, in either direction, `DoTick` commands an angle in the range, and
so does any number of ticks; in particular every state reached from 90
degrees, forward or in reverse, has its angle in the range. -/
theorem range_is_inductive_invariant (this : IncuversRockingingSystem) (readings : List Nat)
    (h70 : 70 ≤ this.rocker_servo.read) (h110 : this.rocker_servo.read ≤ 110) :
    (∀ millis : Nat, ∃ x : Int, lastCommand (DoTick this millis) = some x ∧
      (DoTick this millis).rocker_servo.read = x ∧ 70 ≤ x ∧ x ≤ 110) ∧
    (70 ≤ (ticks this readings).rocker_servo.read ∧
      (ticks this readings).rocker_servo.read ≤ 110) ∧
    (∀ reverse : Bool,
      70 ≤ (ticks { this with rocker_servo := { this.rocker_servo with angle := 90 },
                              reverse := reverse } readings).rocker_servo.read ∧
      (ticks { this with rocker_servo := { this.rocker_servo with angle := 90 },
                         reverse := reverse } readings).rocker_servo.read ≤ 110) := by
  refine ⟨?_, ?_, ?_⟩
  · intro millis
    obtain ⟨h1, h2⟩ := doTick_bounds this millis 70 110 h70 h110
    exact ⟨_, lastCommand_doTick this millis, rfl, by omega, by omega⟩
  · obtain ⟨h1, h2⟩ := ticks_bounds readings this 70 110 h70 h110
    constructor <;> omega
  · intro reverse
    obtain ⟨h1, h2⟩ := ticks_bounds readings
      { this with rocker_servo := { this.rocker_servo with angle := 90 }, reverse := reverse }
      70 110 (by simp [Servo.read]) (by simp [Servo.read])
    constructor <;> omega

/-- C15 at 110 degrees moving forward, ticked three times: the rocker is
commanded to 110, 100 and 90. -/
theorem range_is_inductive_invariant_example :
    (70 ≤ (rockerAt 110 false).rocker_servo.read ∧ (rockerAt 110 false).rocker_servo.read ≤ 110) ∧
    (70 ≤ (ticks (rockerAt 110 false) [10, 20, 30]).rocker_servo.read ∧
      (ticks (rockerAt 110 false) [10, 20, 30]).rocker_servo.read ≤ 110) ∧
    (ticks (rockerAt 110 false) [10, 20, 30]).rocker_servo.writes = [110, 100, 90] :=
  ⟨by decide,
   (range_is_inductive_invariant (rockerAt 110 false) [10, 20, 30] (by decide) (by decide)).2.1,
   by decide⟩

/-- C16: the rocker recovers from any servo position. From an angle between
0 and 180, in either direction, the angle after seven ticks or more lies in
[70, 110] and is the angle last commanded. The first commands can lie
outside: from 180 in reverse the first command is 170, from 0 moving forward
it is 10. -/
theorem rocker_recovers_in_seven_ticks (this : IncuversRockingingSystem)
    (readings : List Nat) (h0 : 0 ≤ this.rocker_servo.read)
    (h180 : this.rocker_servo.read ≤ 180) (hlen : 7 ≤ readings.length) :
    70 ≤ (ticks this readings).rocker_servo.read ∧
    (ticks this readings).rocker_servo.read ≤ 110 ∧
    lastCommand (ticks this readings) = some (ticks this readings).rocker_servo.read ∧
    lastCommand (DoTick (rockerAt 180 true) 0) = some 170 ∧
    lastCommand (DoTick (rockerAt 0 false) 0) = some 10 := by
  obtain ⟨h1, h2⟩ := ticks_bounds readings this 0 180 h0 h180
  have hne : readings ≠ [] := by
    intro h
    rw [h] at hlen
    simp at hlen
  refine ⟨by omega, by omega, lastCommand_ticks readings this hne, by decide, by decide⟩

/-- C16 at 0 degrees moving forward: the seven commands are 10 to 70, and
the angle after the seventh tick is 70. -/
theorem rocker_recovers_in_seven_ticks_example :
    (0 ≤ (rockerAt 0 false).rocker_servo.read ∧ (rockerAt 0 false).rocker_servo.read ≤ 180) ∧
    (70 ≤ (ticks (rockerAt 0 false) [1, 2, 3, 4, 5, 6, 7]).rocker_servo.read ∧
      (ticks (rockerAt 0 false) [1, 2, 3, 4, 5, 6, 7]).rocker_servo.read ≤ 110) ∧
    (ticks (rockerAt 0 false) [1, 2, 3, 4, 5, 6, 7]).rocker_servo.writes =
      [10, 20, 30, 40, 50, 60, 70] ∧
    (ticks (rockerAt 0 false) [1, 2, 3, 4, 5, 6]).rocker_servo.read = 60 :=
  ⟨by decide,
   ⟨(rocker_recovers_in_seven_ticks (rockerAt 0 false) [1, 2, 3, 4, 5, 6, 7]
      (by decide) (by decide) (by decide)).1,
    (rocker_recovers_in_seven_ticks (rockerAt 0 false) [1, 2, 3, 4, 5, 6, 7]
      (by decide) (by decide) (by decide)).2.1⟩,
   by decide, by decide⟩

/-- C17: the oscillation has period exactly 8. From 90 degrees moving
forward, eight calls of `DoTick` pass through (100, forward), (110, reverse),
(100, reverse), (90, reverse), (80, reverse), (70, forward), (80, forward)
and (90, forward); these eight states are pairwise distinct, the start state
is not among the first seven, and the eighth is the start state again. -/
theorem oscillation_period_eight (this : IncuversRockingingSystem)
    (t1 t2 t3 t4 t5 t6 t7 t8 : Nat) :
    trace { this with rocker_servo := { this.rocker_servo with angle := 90 }, reverse := false }
        [t1, t2, t3, t4, t5, t6, t7, t8] =
      [(100, false), (110, true), (100, true), (90, true), (80, true), (70, false),
       (80, false), (90, false)] ∧
    (trace { this with rocker_servo := { this.rocker_servo with angle := 90 }, reverse := false }
        [t1, t2, t3, t4, t5, t6, t7, t8]).Nodup ∧
    (90, false) ∉ (trace { this with rocker_servo := { this.rocker_servo with angle := 90 },
                                     reverse := false }
        [t1, t2, t3, t4, t5, t6, t7, t8]).take 7 ∧
    (ticks { this with rocker_servo := { this.rocker_servo with angle := 90 }, reverse := false }
        [t1, t2, t3, t4, t5, t6, t7, t8]).rocker_servo.read = 90 ∧
    (ticks { this with rocker_servo := { this.rocker_servo with angle := 90 }, reverse := false }
        [t1, t2, t3, t4, t5, t6, t7, t8]).reverse = false := by
  have htrace : trace { this with rocker_servo := { this.rocker_servo with angle := 90 },
                                  reverse := false } [t1, t2, t3, t4, t5, t6, t7, t8] =
      [(100, false), (110, true), (100, true), (90, true), (80, true), (70, false),
       (80, false), (90, false)] := by
    simp [trace, DoTick, DoTick.targetPos, ROCKER_SPEED, ROCKER_MAX_ANGLE, Servo.read,
      Servo.write]
  refine ⟨htrace, ?_, ?_, ?_, ?_⟩
  · rw [htrace]; decide
  · rw [htrace]; decide
  · simp [ticks, DoTick, DoTick.targetPos, ROCKER_SPEED, ROCKER_MAX_ANGLE, Servo.read,
      Servo.write]
  · simp [ticks, DoTick, DoTick.targetPos, ROCKER_SPEED, ROCKER_MAX_ANGLE, Servo.read,
      Servo.write]

/-- C18: the flag `enabled` has no effect on motion. Changing only that flag
changes nothing else in the result of `DoTick`: the command and the direction
are the same. A rocker set up with `enabled = false` still issues one servo
command on every tick. -/
theorem enabled_flag_has_no_effect (this : IncuversRockingingSystem) (enabled : Bool)
    (millis : Nat) (pin : Int) (t : Nat) (readings : List Nat) :
    DoTick { this with enabled := enabled } millis =
      { DoTick this millis with enabled := enabled } ∧
    lastCommand (DoTick { this with enabled := enabled } millis) =
      lastCommand (DoTick this millis) ∧
    (DoTick { this with enabled := enabled } millis).reverse = (DoTick this millis).reverse ∧
    (SetupRocker this pin false t).enabled = false ∧
    (∃ x : Int, (DoTick (SetupRocker this pin false t) millis).rocker_servo.writes =
      this.rocker_servo.writes ++ [x]) ∧
    (ticks (SetupRocker this pin false t) readings).rocker_servo.writes.length =
      this.rocker_servo.writes.length + readings.length := by
  have heq : DoTick { this with enabled := enabled } millis =
      { DoTick this millis with enabled := enabled } := by
    rw [doTick_eq, doTick_eq]
  refine ⟨heq, ?_, ?_, rfl, ?_, ?_⟩
  · rw [heq]; rfl
  · rw [heq]
  · rw [doTick_eq]; exact ⟨_, rfl⟩
  · rw [ticks_writes_length]; rfl

/-- C19: `DoTick` changes only the servo's angle and commands, the direction
and the last-update time; the pin, `enabled`, `last_target`, `currentlyOn`
(and `tickTime`, and the pin the servo is attached to) are as before, after
one tick and after any number of ticks. `GetSerialAPIndicator` and
`GetNewUIIndicator` both return `GetIndicator(currentlyOn, false, false,
true)`, so they agree and return after the ticks what they returned before. -/
theorem doTick_frame_and_indicators (GetIndicator : Bool → Bool → Bool → Bool → Char)
    (this : IncuversRockingingSystem) (millis : Nat) (readings : List Nat) :
    ((DoTick this millis).pinAssignment = this.pinAssignment ∧
      (DoTick this millis).enabled = this.enabled ∧
      (DoTick this millis).currentlyOn = this.currentlyOn ∧
      (DoTick this millis).last_target = this.last_target ∧
      (DoTick this millis).tickTime = this.tickTime ∧
      (DoTick this millis).rocker_servo.pin = this.rocker_servo.pin) ∧
    ((ticks this readings).pinAssignment = this.pinAssignment ∧
      (ticks this readings).enabled = this.enabled ∧
      (ticks this readings).currentlyOn = this.currentlyOn ∧
      (ticks this readings).last_target = this.last_target ∧
      (ticks this readings).tickTime = this.tickTime ∧
      (ticks this readings).rocker_servo.pin = this.rocker_servo.pin) ∧
    GetSerialAPIndicator GetIndicator this = GetIndicator this.currentlyOn false false true ∧
    GetNewUIIndicator GetIndicator this = GetSerialAPIndicator GetIndicator this ∧
    GetSerialAPIndicator GetIndicator (ticks this readings) =
      GetSerialAPIndicator GetIndicator this ∧
    GetNewUIIndicator GetIndicator (ticks this readings) =
      GetNewUIIndicator GetIndicator this := by
  have hf := ticks_frame readings this
  refine ⟨doTick_frame this millis, hf, rfl, rfl, ?_, ?_⟩
  · simp [GetSerialAPIndicator, hf.2.2.1]
  · simp [GetNewUIIndicator, hf.2.2.1]

end RockerStep

/-! ## Setting up the telemetry reporter -/

section PiLinkSetup

open PiLinkIncluded IncuversPiLink

/-- C13: `SetupPiLink` is idempotent. Calling it a second time with the same
handle, the settings unchanged, leaves the reporter and the serial port as
the first call left them: the handle stored, and the port opened at 9600
baud, 8 data bits, even parity, 2 stop bits when the settings report a Pi
link, untouched otherwise; nothing is printed. -/
theorem setupPiLink_idempotent {F : Type} (mem : Mem F) (this : IncuversPiLink)
    (iSettings : Handle) (Serial1 : HardwareSerial) :
    SetupPiLink mem (SetupPiLink mem this iSettings Serial1).1 iSettings
        (SetupPiLink mem this iSettings Serial1).2 =
      SetupPiLink mem this iSettings Serial1 ∧
    (SetupPiLink mem this iSettings Serial1).1.incSet = iSettings ∧
    (SetupPiLink mem this iSettings Serial1).1.isEnabled = this.isEnabled ∧
    (SetupPiLink mem this iSettings Serial1).2.begun =
      (if (mem iSettings).HasPiLink then some (9600, ⟨8, true, 2⟩) else Serial1.begun) ∧
    (SetupPiLink mem this iSettings Serial1).2.out = Serial1.out := by
  cases h : (mem iSettings).HasPiLink <;>
    simp [SetupPiLink, h, HardwareSerial.begin, SERIAL_8E2]

end PiLinkSetup

end Incuvers
